import Mathlib

/-
Verification development for the Yans error-rate model
(yans-error-rate-model.cc, ns-3).

The numeric model works over the exact rationals.  The two libm routines
the source calls, std::erfc and std::sqrt, are external to the repository;
they are passed to every definition that needs them as explicit function
parameters (named er and sq).  Theorems that need analytic facts about
them take those facts as hypotheses that the true functions satisfy
(0 <= erfc x <= 2, and sqrt x >= 1 for x >= 1).

Machine integers: Factorial is computed in uint32_t, so every
multiplication wraps modulo 2^32; this is modelled explicitly.  The
uint32_t division in Binomial is C unsigned division, i.e. Nat division.
std::pow with a nonnegative-integer exponent is modelled as the monoid
power on the rationals.  log2 is applied only to the constellation sizes
4, 16, 64, 256, 1024 and 4096, all powers of two, where it agrees with
Nat.log 2.
-/

namespace Yans

/-- Modulus of uint32_t arithmetic. -/
def u32 : ℕ := 2 ^ 32

/-- Loop of YansErrorRateModel::Factorial: fact starts at 1; while k > 0,
fact is multiplied by k (a uint32_t multiplication, wrapping mod 2^32)
and k is decremented. -/
def factorialLoop : ℕ → ℕ → ℕ
  | fact, 0 => fact
  | fact, k + 1 => factorialLoop (fact * (k + 1) % u32) k

/-- YansErrorRateModel::Factorial (uint32_t arithmetic). -/
def Factorial (k : ℕ) : ℕ := factorialLoop 1 k

/-- YansErrorRateModel::Binomial.  The quotient
Factorial(n) / (Factorial(k) * Factorial(n - k)) is computed entirely in
uint32_t (the product wraps mod 2^32, the division is unsigned integer
division) and is then converted to double and multiplied by
pow(p, k) * pow(1 - p, n - k).  All call sites in the source pass
k <= n. -/
def Binomial (k : ℕ) (p : ℚ) (n : ℕ) : ℚ :=
  ((Factorial n / (Factorial k * Factorial (n - k) % u32) : ℕ) : ℚ) *
    p ^ k * (1 - p) ^ (n - k)

/-- YansErrorRateModel::CalculatePdOdd: the for loop sums
Binomial(i, ber, d) for i from (d+1)/2 (inclusive) to d (exclusive).
The source asserts d odd. -/
def CalculatePdOdd (ber : ℚ) (d : ℕ) : ℚ :=
  ∑ i in Finset.Ico ((d + 1) / 2) d, Binomial i ber d

/-- YansErrorRateModel::CalculatePdEven: the for loop sums
Binomial(i, ber, d) for i from d/2 + 1 (inclusive) to d (exclusive),
then adds 0.5 * Binomial(d/2, ber, d).  The source asserts d even. -/
def CalculatePdEven (ber : ℚ) (d : ℕ) : ℚ :=
  (∑ i in Finset.Ico (d / 2 + 1) d, Binomial i ber d) +
    1 / 2 * Binomial (d / 2) ber d

/-- YansErrorRateModel::CalculatePd: dispatch on the parity of d. -/
def CalculatePd (ber : ℚ) (d : ℕ) : ℚ :=
  if d % 2 = 0 then CalculatePdEven ber d else CalculatePdOdd ber d

/-- YansErrorRateModel::GetBpskBer.  er and sq stand for std::erfc and
std::sqrt. -/
def GetBpskBer (er sq : ℚ → ℚ) (snr : ℚ) (signalSpread : ℚ) (phyRate : ℚ) : ℚ :=
  let EbNo := snr * signalSpread * 1000000 / phyRate
  let z := sq EbNo
  1 / 2 * er z

/-- YansErrorRateModel::GetQamBer.  log2(m) is exact for the powers of
two passed at every call site, where it equals Nat.log 2 m. -/
def GetQamBer (er sq : ℚ → ℚ) (snr : ℚ) (m : ℕ) (signalSpread : ℚ)
    (phyRate : ℚ) : ℚ :=
  let EbNo := snr * signalSpread * 1000000 / phyRate
  let z := sq (3 / 2 * (Nat.log 2 m : ℚ) * EbNo / ((m : ℚ) - 1))
  let z1 := (1 - 1 / sq (m : ℚ)) * er z
  let z2 := 1 - (1 - z1) ^ 2
  z2 / (Nat.log 2 m : ℚ)

/-- YansErrorRateModel::GetFecBpskBer. -/
def GetFecBpskBer (er sq : ℚ → ℚ) (snr : ℚ) (nbits : ℕ) (signalSpread : ℚ)
    (phyRate : ℚ) (dFree adFree : ℕ) : ℚ :=
  let ber := GetBpskBer er sq snr signalSpread phyRate
  if ber = 0 then 1
  else
    let pd := CalculatePd ber dFree
    let pmu := (adFree : ℚ) * pd
    let pmu2 := min pmu 1
    (1 - pmu2) ^ nbits

/-- YansErrorRateModel::GetFecQamBer. -/
def GetFecQamBer (er sq : ℚ → ℚ) (snr : ℚ) (nbits : ℕ) (signalSpread : ℚ)
    (phyRate : ℚ) (m dFree adFree adFreePlusOne : ℕ) : ℚ :=
  let ber := GetQamBer er sq snr m signalSpread phyRate
  if ber = 0 then 1
  else
    let pd1 := CalculatePd ber dFree
    let pd2 := CalculatePd ber (dFree + 1)
    let pmu := (adFree : ℚ) * pd1 + (adFreePlusOne : ℚ) * pd2
    let pmu2 := min pmu 1
    (1 - pmu2) ^ nbits

/-- The ns-3 WifiCodeRate enumeration (the members this model inspects,
plus rates that exist in ns-3 but are absent from this model's table). -/
inductive WifiCodeRate
  | undefined
  | r1_2
  | r2_3
  | r3_4
  | r5_6
  | r5_8
  | r3_16
  | r7_8
  deriving DecidableEq, Repr

/-- The ns-3 WifiModulationClass enumeration, in declaration order
(the source compares enumerators by their underlying value). -/
inductive WifiModulationClass
  | unknown
  | dsss
  | hrDsss
  | erpOfdm
  | ofdm
  | ht
  | vht
  | he
  | eht
  deriving DecidableEq, Repr

/-- Underlying integer value of a WifiModulationClass enumerator,
following the declaration order of the ns-3 enum. -/
def modClassRank : WifiModulationClass → ℕ
  | .unknown => 0
  | .dsss => 1
  | .hrDsss => 2
  | .erpOfdm => 3
  | .ofdm => 4
  | .ht => 5
  | .vht => 6
  | .he => 7
  | .eht => 8

/-- The part of ns-3 WifiMode that DoGetChunkSuccessRate inspects:
modulation class, constellation size and code rate. -/
structure WifiMode where
  modClass : WifiModulationClass
  constellationSize : ℕ
  codeRate : WifiCodeRate
  deriving DecidableEq, Repr

/-- The part of ns-3 WifiTxVector that DoGetChunkSuccessRate inspects:
channel width (MHz), the MU flag, and GetMode(staId). -/
structure WifiTxVector where
  channelWidth : ℚ
  isMu : Bool
  modeOfSta : ℕ → WifiMode

/-- The ns-3 single-user station-id sentinel SU_STA_ID. -/
def SU_STA_ID : ℕ := 65535

/-- The width argument of the header-rate branch of
DoGetChunkSuccessRate: txVector.GetChannelWidth() >= 40 MHz yields
20 MHz, otherwise the channel width itself. -/
def effectiveHeaderWidth (w : ℚ) : ℚ := if 40 ≤ w then 20 else w

/-- The condition of lines 198 of the source under which the PHY rate is
taken at the (possibly reduced) header width: the transmission is MU and
staId is SU_STA_ID, or the evaluated mode differs from the transmission
mode for staId. -/
def headerRateCond (mode : WifiMode) (tx : WifiTxVector) (staId : ℕ) : Prop :=
  (tx.isMu = true ∧ staId = SU_STA_ID) ∨ mode ≠ tx.modeOfSta staId

instance (mode : WifiMode) (tx : WifiTxVector) (staId : ℕ) :
    Decidable (headerRateCond mode tx staId) := by
  unfold headerRateCond
  infer_instance

/-- The local variable phyRate of DoGetChunkSuccessRate.  The two
GetPhyRate overloads of ns-3 WifiMode live outside this repository and
are passed as the abstract parameters prW (rate of a mode at a width)
and prTx (rate of a mode for a tx vector and station). -/
def selectedPhyRate (prW : WifiMode → ℚ → ℚ)
    (prTx : WifiMode → WifiTxVector → ℕ → ℚ) (mode : WifiMode)
    (tx : WifiTxVector) (staId : ℕ) : ℚ :=
  if headerRateCond mode tx staId then
    prW mode (effectiveHeaderWidth tx.channelWidth)
  else prTx mode tx staId

/-- YansErrorRateModel::DoGetChunkSuccessRate.  numRxAntennas and field
are parameters of the source signature that its body only logs; field is
modelled as a bare number (the WifiPpduField enumerator value). -/
def DoGetChunkSuccessRate (er sq : ℚ → ℚ) (prW : WifiMode → ℚ → ℚ)
    (prTx : WifiMode → WifiTxVector → ℕ → ℚ) (mode : WifiMode)
    (tx : WifiTxVector) (snr : ℚ) (nbits : ℕ) (numRxAntennas : ℕ)
    (field : ℕ) (staId : ℕ) : ℚ :=
  if modClassRank .erpOfdm ≤ modClassRank mode.modClass then
    let phyRate := selectedPhyRate prW prTx mode tx staId
    if mode.constellationSize = 2 then
      if mode.codeRate = .r1_2 then
        GetFecBpskBer er sq snr nbits tx.channelWidth phyRate 10 11
      else
        GetFecBpskBer er sq snr nbits tx.channelWidth phyRate 5 8
    else if mode.constellationSize = 4 then
      if mode.codeRate = .r1_2 then
        GetFecQamBer er sq snr nbits tx.channelWidth phyRate 4 10 11 0
      else
        GetFecQamBer er sq snr nbits tx.channelWidth phyRate 4 5 8 31
    else if mode.constellationSize = 16 then
      if mode.codeRate = .r1_2 then
        GetFecQamBer er sq snr nbits tx.channelWidth phyRate 16 10 11 0
      else
        GetFecQamBer er sq snr nbits tx.channelWidth phyRate 16 5 8 31
    else if mode.constellationSize = 64 then
      if mode.codeRate = .r2_3 then
        GetFecQamBer er sq snr nbits tx.channelWidth phyRate 64 6 1 16
      else if mode.codeRate = .r5_6 then
        GetFecQamBer er sq snr nbits tx.channelWidth phyRate 64 4 14 69
      else
        GetFecQamBer er sq snr nbits tx.channelWidth phyRate 64 5 8 31
    else if mode.constellationSize = 256 then
      if mode.codeRate = .r5_6 then
        GetFecQamBer er sq snr nbits tx.channelWidth phyRate 256 4 14 69
      else
        GetFecQamBer er sq snr nbits tx.channelWidth phyRate 256 5 8 31
    else if mode.constellationSize = 1024 then
      if mode.codeRate = .r5_6 then
        GetFecQamBer er sq snr nbits tx.channelWidth phyRate 1024 4 14 69
      else
        GetFecQamBer er sq snr nbits tx.channelWidth phyRate 1024 5 8 31
    else if mode.constellationSize = 4096 then
      if mode.codeRate = .r5_6 then
        GetFecQamBer er sq snr nbits tx.channelWidth phyRate 4096 4 14 69
      else
        GetFecQamBer er sq snr nbits tx.channelWidth phyRate 4096 5 8 31
    else 0
  else 0

/-- The constellation-size and code-rate dispatch chain of
DoGetChunkSuccessRate (lines 208-396 of the source), with the signal
spread and the PHY rate as explicit arguments.  DoGetChunkSuccessRate
instantiates it with signalSpread := the tx vector's channel width and
phyRate := the selected PHY rate. -/
def fecDispatch (er sq : ℚ → ℚ) (mode : WifiMode) (snr : ℚ) (nbits : ℕ)
    (signalSpread phyRate : ℚ) : ℚ :=
  if mode.constellationSize = 2 then
    if mode.codeRate = .r1_2 then
      GetFecBpskBer er sq snr nbits signalSpread phyRate 10 11
    else
      GetFecBpskBer er sq snr nbits signalSpread phyRate 5 8
  else if mode.constellationSize = 4 then
    if mode.codeRate = .r1_2 then
      GetFecQamBer er sq snr nbits signalSpread phyRate 4 10 11 0
    else
      GetFecQamBer er sq snr nbits signalSpread phyRate 4 5 8 31
  else if mode.constellationSize = 16 then
    if mode.codeRate = .r1_2 then
      GetFecQamBer er sq snr nbits signalSpread phyRate 16 10 11 0
    else
      GetFecQamBer er sq snr nbits signalSpread phyRate 16 5 8 31
  else if mode.constellationSize = 64 then
    if mode.codeRate = .r2_3 then
      GetFecQamBer er sq snr nbits signalSpread phyRate 64 6 1 16
    else if mode.codeRate = .r5_6 then
      GetFecQamBer er sq snr nbits signalSpread phyRate 64 4 14 69
    else
      GetFecQamBer er sq snr nbits signalSpread phyRate 64 5 8 31
  else if mode.constellationSize = 256 then
    if mode.codeRate = .r5_6 then
      GetFecQamBer er sq snr nbits signalSpread phyRate 256 4 14 69
    else
      GetFecQamBer er sq snr nbits signalSpread phyRate 256 5 8 31
  else if mode.constellationSize = 1024 then
    if mode.codeRate = .r5_6 then
      GetFecQamBer er sq snr nbits signalSpread phyRate 1024 4 14 69
    else
      GetFecQamBer er sq snr nbits signalSpread phyRate 1024 5 8 31
  else if mode.constellationSize = 4096 then
    if mode.codeRate = .r5_6 then
      GetFecQamBer er sq snr nbits signalSpread phyRate 4096 4 14 69
    else
      GetFecQamBer er sq snr nbits signalSpread phyRate 4096 5 8 31
  else 0

end Yans

namespace Yans

/-- uint32_t factorial agrees with the mathematical factorial for all
arguments up to 12 (every intermediate product stays below 2^32). -/
theorem factorial_eq_of_le_twelve :
    ∀ n ∈ Finset.range 13, Factorial n = Nat.factorial n := by decide

/-- The combinatorial factor computed by Binomial in uint32_t arithmetic
equals the binomial coefficient for all n up to 12 and k up to n. -/
theorem binFactor_eq_choose :
    ∀ n ∈ Finset.range 13, ∀ k ∈ Finset.range (n + 1),
      Factorial n / (Factorial k * Factorial (n - k) % u32) = Nat.choose n k := by
  decide

/-- GetFecBpskBer with nbits = 0 returns 1 in both branches. -/
theorem fecBpsk_nbits_zero (er sq : ℚ → ℚ) (snr : ℚ) (signalSpread phyRate : ℚ)
    (dFree adFree : ℕ) :
    GetFecBpskBer er sq snr 0 signalSpread phyRate dFree adFree = 1 := by
  rw [GetFecBpskBer]
  split <;> simp

/-- GetFecQamBer with nbits = 0 returns 1 in both branches. -/
theorem fecQam_nbits_zero (er sq : ℚ → ℚ) (snr : ℚ) (signalSpread phyRate : ℚ)
    (m dFree adFree adFreePlusOne : ℕ) :
    GetFecQamBer er sq snr 0 signalSpread phyRate m dFree adFree adFreePlusOne = 1 := by
  rw [GetFecQamBer]
  split <;> simp

/-- Claim C1 (as stated, refuted): at n = 13, k = 6, p = 1/2 the value
returned by Binomial is 532 * (1/2)^13, not C(13,6) * (1/2)^13 = 1716 *
(1/2)^13: the 32-bit factorial wraps (13! mod 2^32 = 1932053504) and the
unsigned integer division then yields 532. -/
theorem C1_counterexample :
    Binomial 6 (1 / 2) 13 = 532 * ((1 : ℚ) / 2) ^ 13 ∧
      Nat.choose 13 6 = 1716 ∧
      Binomial 6 (1 / 2) 13 ≠
        (Nat.choose 13 6 : ℚ) * (1 / 2) ^ 6 * (1 - 1 / 2) ^ (13 - 6) := by
  have h : Factorial 13 / (Factorial 6 * Factorial (13 - 6) % u32) = 532 := rfl
  have hc : Nat.choose 13 6 = 1716 := rfl
  refine ⟨?_, hc, ?_⟩
  · rw [Binomial, h]
    norm_num
  · rw [Binomial, h, hc]
    norm_num

/-- Claim C1 (amended): for every n up to 12 (in particular the largest
table distance n = 11 and all distances the dispatch table ever passes),
every k with k <= n and every rational p, Binomial(k, p, n) equals
C(n,k) * p^k * (1-p)^(n-k) exactly; the 32-bit factorial arithmetic does
not overflow in this range.  For n >= 13 the claim fails (see the
counterexample). -/
theorem C1_binomial_exact_up_to_twelve (n k : ℕ) (hn : n ≤ 12) (hk : k ≤ n)
    (p : ℚ) :
    Binomial k p n = (Nat.choose n k : ℚ) * p ^ k * (1 - p) ^ (n - k) := by
  have h := binFactor_eq_choose n (Finset.mem_range.mpr (by omega)) k
    (Finset.mem_range.mpr (by omega))
  rw [Binomial, h]

/-- Claim C1 witness: the amended theorem applied at n = 11, k = 5,
p = 1/3. -/
theorem C1_witness :
    Binomial 5 (1 / 3) 11 =
      (Nat.choose 11 5 : ℚ) * (1 / 3) ^ 5 * (1 - 1 / 3) ^ (11 - 5) :=
  C1_binomial_exact_up_to_twelve 11 5 (by norm_num) (by norm_num) (1 / 3)

/-- Claim C6: CalculatePd(ber, d) is, for odd d, the sum of
Binomial(i, ber, d) for i from (d+1)/2 to d-1 inclusive, and, for even d,
the same sum from d/2+1 to d-1 plus 0.5 * Binomial(d/2, ber, d). -/
theorem C6_calculatePd_sum (ber : ℚ) (d : ℕ) :
    (d % 2 = 1 →
      CalculatePd ber d =
        ∑ i in Finset.Icc ((d + 1) / 2) (d - 1), Binomial i ber d) ∧
    (d % 2 = 0 →
      CalculatePd ber d =
        (∑ i in Finset.Icc (d / 2 + 1) (d - 1), Binomial i ber d) +
          1 / 2 * Binomial (d / 2) ber d) := by
  constructor
  · intro h
    rw [CalculatePd, if_neg (by omega), CalculatePdOdd]
    have hset : Finset.Ico ((d + 1) / 2) d = Finset.Icc ((d + 1) / 2) (d - 1) := by
      ext i
      simp only [Finset.mem_Ico, Finset.mem_Icc]
      omega
    rw [hset]
  · intro h
    rw [CalculatePd, if_pos h, CalculatePdEven]
    have hset : Finset.Ico (d / 2 + 1) d = Finset.Icc (d / 2 + 1) (d - 1) := by
      ext i
      simp only [Finset.mem_Ico, Finset.mem_Icc]
      omega
    rw [hset]

/-- Claim C6 witness: the theorem applied at d = 3 (odd case) and d = 4
(even case) with ber = 1/3. -/
theorem C6_witness :
    CalculatePd (1 / 3) 3 =
      ∑ i in Finset.Icc ((3 + 1) / 2) (3 - 1), Binomial i (1 / 3) 3 ∧
    CalculatePd (1 / 3) 4 =
      (∑ i in Finset.Icc (4 / 2 + 1) (4 - 1), Binomial i (1 / 3) 4) +
        1 / 2 * Binomial (4 / 2) (1 / 3) 4 :=
  ⟨(C6_calculatePd_sum (1 / 3) 3).1 (by norm_num),
   (C6_calculatePd_sum (1 / 3) 4).2 (by norm_num)⟩

/-- Claim C8: for every mode whose modulation class is below ERP-OFDM,
DoGetChunkSuccessRate returns 0, for every SNR, bit count, tx vector,
antenna count, field and station id. -/
theorem C8_ineligible_returns_zero (er sq : ℚ → ℚ) (prW : WifiMode → ℚ → ℚ)
    (prTx : WifiMode → WifiTxVector → ℕ → ℚ) (mode : WifiMode)
    (tx : WifiTxVector) (snr : ℚ) (nbits numRxAntennas field staId : ℕ)
    (h : modClassRank mode.modClass < modClassRank .erpOfdm) :
    DoGetChunkSuccessRate er sq prW prTx mode tx snr nbits numRxAntennas
      field staId = 0 := by
  rw [DoGetChunkSuccessRate, if_neg (by omega)]

/-- Claim C8 witness: a DSSS mode at a concrete input returns 0. -/
theorem C8_witness :
    DoGetChunkSuccessRate (fun _ => 1) (fun _ => 1) (fun _ _ => 6)
      (fun _ _ _ => 6) ⟨.dsss, 2, .r1_2⟩
      ⟨20, false, fun _ => ⟨.dsss, 2, .r1_2⟩⟩ 1 100 1 0 0 = 0 :=
  C8_ineligible_returns_zero (fun _ => 1) (fun _ => 1) (fun _ _ => 6)
    (fun _ _ _ => 6) ⟨.dsss, 2, .r1_2⟩
    ⟨20, false, fun _ => ⟨.dsss, 2, .r1_2⟩⟩ 1 100 1 0 0 (by decide)

end Yans

namespace Yans

/-- Claim C3 (as stated, refuted): a DSSS (coded-OFDM-ineligible) mode
with nbits = 0 returns 0, not 1: the eligibility test precedes the
empty-chunk behaviour. -/
theorem C3_counterexample :
    DoGetChunkSuccessRate (fun _ => 1) (fun _ => 1) (fun _ _ => 6)
      (fun _ _ _ => 6) ⟨.dsss, 2, .r1_2⟩
      ⟨20, false, fun _ => ⟨.dsss, 2, .r1_2⟩⟩ 1 0 1 0 0 ≠ 1 := by
  rw [DoGetChunkSuccessRate, if_neg (by decide)]
  norm_num

/-- Claim C3 (amended): for every scheme that is eligible for the
coded-OFDM model and whose constellation size is one of the table's
sizes 2, 4, 16, 64, 256, 1024, 4096, every tx vector, SNR, antenna
count, field and station id, nbits = 0 returns exactly 1; in every other
case (ineligible modulation class, or constellation size outside the
table) the call returns 0 even at nbits = 0. -/
theorem C3_nbits_zero_returns_one (er sq : ℚ → ℚ) (prW : WifiMode → ℚ → ℚ)
    (prTx : WifiMode → WifiTxVector → ℕ → ℚ) (mode : WifiMode)
    (tx : WifiTxVector) (snr : ℚ) (numRxAntennas field staId : ℕ)
    (h : modClassRank .erpOfdm ≤ modClassRank mode.modClass)
    (hcs : mode.constellationSize ∈ ([2, 4, 16, 64, 256, 1024, 4096] : List ℕ)) :
    DoGetChunkSuccessRate er sq prW prTx mode tx snr 0 numRxAntennas
      field staId = 1 := by
  rw [DoGetChunkSuccessRate, if_pos h]
  dsimp only
  simp only [List.mem_cons, List.not_mem_nil, or_false] at hcs
  repeat' split
  all_goals first
    | exact fecBpsk_nbits_zero er sq snr tx.channelWidth _ _ _
    | exact fecQam_nbits_zero er sq snr tx.channelWidth _ _ _ _ _
    | omega

/-- Claim C3 witness: a concrete eligible (ERP-OFDM BPSK 1/2) call with
nbits = 0 returns 1. -/
theorem C3_witness :
    DoGetChunkSuccessRate (fun _ => 1) (fun _ => 1) (fun _ _ => 6)
      (fun _ _ _ => 6) ⟨.erpOfdm, 2, .r1_2⟩
      ⟨20, false, fun _ => ⟨.erpOfdm, 2, .r1_2⟩⟩ 1 0 1 0 0 = 1 :=
  C3_nbits_zero_returns_one (fun _ => 1) (fun _ => 1) (fun _ _ => 6)
    (fun _ _ _ => 6) ⟨.erpOfdm, 2, .r1_2⟩
    ⟨20, false, fun _ => ⟨.erpOfdm, 2, .r1_2⟩⟩ 1 1 0 0 (by decide) (by decide)

/-- GetFecBpskBer returns 1 when the computed raw BER is 0. -/
theorem fecBpsk_of_ber_zero (er sq : ℚ → ℚ) (snr : ℚ) (nbits : ℕ)
    (signalSpread phyRate : ℚ) (dFree adFree : ℕ)
    (h : GetBpskBer er sq snr signalSpread phyRate = 0) :
    GetFecBpskBer er sq snr nbits signalSpread phyRate dFree adFree = 1 := by
  rw [GetFecBpskBer]
  simp [h]

/-- GetFecQamBer returns 1 when the computed raw BER is 0. -/
theorem fecQam_of_ber_zero (er sq : ℚ → ℚ) (snr : ℚ) (nbits : ℕ)
    (signalSpread phyRate : ℚ) (m dFree adFree adFreePlusOne : ℕ)
    (h : GetQamBer er sq snr m signalSpread phyRate = 0) :
    GetFecQamBer er sq snr nbits signalSpread phyRate m dFree adFree
      adFreePlusOne = 1 := by
  rw [GetFecQamBer]
  simp [h]

/-- Claim C7: whenever the raw BER computed for the call is exactly 0,
GetFecBpskBer and GetFecQamBer return exactly 1, for every coefficient
set and bit count, and DoGetChunkSuccessRate then returns 1 for every
scheme of the table.  (Division by zero and NaN do not arise: the model
is exact arithmetic and the result does not depend on the
coefficients.) -/
theorem C7_ber_zero_short_circuit (er sq : ℚ → ℚ) :
    (∀ (snr signalSpread phyRate : ℚ) (nbits dFree adFree : ℕ),
        GetBpskBer er sq snr signalSpread phyRate = 0 →
        GetFecBpskBer er sq snr nbits signalSpread phyRate dFree adFree = 1) ∧
    (∀ (snr signalSpread phyRate : ℚ) (nbits m dFree adFree adFreePlusOne : ℕ),
        GetQamBer er sq snr m signalSpread phyRate = 0 →
        GetFecQamBer er sq snr nbits signalSpread phyRate m dFree adFree
          adFreePlusOne = 1) ∧
    (∀ (prW : WifiMode → ℚ → ℚ) (prTx : WifiMode → WifiTxVector → ℕ → ℚ)
        (mode : WifiMode) (tx : WifiTxVector) (snr : ℚ)
        (nbits numRxAntennas field staId : ℕ),
        (∀ r, GetBpskBer er sq snr tx.channelWidth r = 0) →
        (∀ m r, GetQamBer er sq snr m tx.channelWidth r = 0) →
        modClassRank .erpOfdm ≤ modClassRank mode.modClass →
        mode.constellationSize ∈ ([2, 4, 16, 64, 256, 1024, 4096] : List ℕ) →
        DoGetChunkSuccessRate er sq prW prTx mode tx snr nbits numRxAntennas
          field staId = 1) := by
  refine ⟨?_, ?_, ?_⟩
  · intro snr signalSpread phyRate nbits dFree adFree h
    exact fecBpsk_of_ber_zero er sq snr nbits signalSpread phyRate dFree adFree h
  · intro snr signalSpread phyRate nbits m dFree adFree adFreePlusOne h
    exact fecQam_of_ber_zero er sq snr nbits signalSpread phyRate m dFree adFree
      adFreePlusOne h
  · intro prW prTx mode tx snr nbits numRxAntennas field staId hb hq helig hcs
    rw [DoGetChunkSuccessRate, if_pos helig]
    dsimp only
    simp only [List.mem_cons, List.not_mem_nil, or_false] at hcs
    repeat' split
    all_goals first
      | exact fecBpsk_of_ber_zero er sq snr nbits tx.channelWidth _ _ _ (hb _)
      | exact fecQam_of_ber_zero er sq snr nbits tx.channelWidth _ _ _ _ _ (hq _ _)
      | omega

/-- Claim C7 witness: with an erfc model that is identically 0 the raw
BER is 0 and a concrete BPSK call and a concrete dispatch call both
return 1. -/
theorem C7_witness :
    GetFecBpskBer (fun _ => 0) (fun _ => 1) 5 100 20 6 10 11 = 1 ∧
    DoGetChunkSuccessRate (fun _ => 0) (fun _ => 1) (fun _ _ => 6)
      (fun _ _ _ => 6) ⟨.erpOfdm, 64, .r5_6⟩
      ⟨20, false, fun _ => ⟨.erpOfdm, 64, .r5_6⟩⟩ 5 100 1 0 0 = 1 :=
  ⟨(C7_ber_zero_short_circuit (fun _ => 0) (fun _ => 1)).1 5 20 6 100 10 11
      (by norm_num [GetBpskBer]),
   (C7_ber_zero_short_circuit (fun _ => 0) (fun _ => 1)).2.2 (fun _ _ => 6)
      (fun _ _ _ => 6) ⟨.erpOfdm, 64, .r5_6⟩
      ⟨20, false, fun _ => ⟨.erpOfdm, 64, .r5_6⟩⟩ 5 100 1 0 0
      (by intro r; norm_num [GetBpskBer])
      (by intro m r; norm_num [GetQamBer]) (by decide) (by decide)⟩

end Yans

namespace Yans

/-- DoGetChunkSuccessRate factored through fecDispatch and
selectedPhyRate (definitional). -/
theorem doChunk_eq_dispatch (er sq : ℚ → ℚ) (prW : WifiMode → ℚ → ℚ)
    (prTx : WifiMode → WifiTxVector → ℕ → ℚ) (mode : WifiMode)
    (tx : WifiTxVector) (snr : ℚ) (nbits numRxAntennas field staId : ℕ) :
    DoGetChunkSuccessRate er sq prW prTx mode tx snr nbits numRxAntennas
        field staId =
      if modClassRank .erpOfdm ≤ modClassRank mode.modClass then
        fecDispatch er sq mode snr nbits tx.channelWidth
          (selectedPhyRate prW prTx mode tx staId)
      else 0 := rfl

/-- Claim C2 (as stated, refuted): two out-of-table calls that are
silently answered.  A BPSK (constellation 2) mode with code rate 5/6 --
a rate absent from the BPSK rows of the table -- is answered with the
fallback coefficients dFree = 5, adFree = 8; a mode with constellation
size 8 -- absent from the table altogether -- is answered with 0.
Neither call fails. -/
theorem C2_counterexample :
    DoGetChunkSuccessRate (fun _ => 1) (fun _ => 1) (fun _ _ => 6)
        (fun _ _ _ => 6) ⟨.erpOfdm, 2, .r5_6⟩
        ⟨20, false, fun _ => ⟨.erpOfdm, 2, .r5_6⟩⟩ 1 1 1 0 0 =
      GetFecBpskBer (fun _ => 1) (fun _ => 1) 1 1 20 6 5 8 ∧
    DoGetChunkSuccessRate (fun _ => 1) (fun _ => 1) (fun _ _ => 6)
        (fun _ _ _ => 6) ⟨.erpOfdm, 8, .r1_2⟩
        ⟨20, false, fun _ => ⟨.erpOfdm, 8, .r1_2⟩⟩ 1 1 1 0 0 = 0 :=
  ⟨rfl, rfl⟩

/-- Claim C2 (amended): out-of-table inputs are not rejected.  For every
eligible mode, a constellation size outside the table's seven sizes
yields 0 (the same value as an unmodeled scheme), and constellation
size 2 with any code rate other than 1/2 is silently answered with the
fallback coefficients dFree = 5, adFree = 8. -/
theorem C2_out_of_table_not_rejected (er sq : ℚ → ℚ)
    (prW : WifiMode → ℚ → ℚ) (prTx : WifiMode → WifiTxVector → ℕ → ℚ)
    (mode : WifiMode) (tx : WifiTxVector) (snr : ℚ)
    (nbits numRxAntennas field staId : ℕ)
    (helig : modClassRank .erpOfdm ≤ modClassRank mode.modClass) :
    (mode.constellationSize ∉ ([2, 4, 16, 64, 256, 1024, 4096] : List ℕ) →
      DoGetChunkSuccessRate er sq prW prTx mode tx snr nbits numRxAntennas
        field staId = 0) ∧
    (mode.constellationSize = 2 → mode.codeRate ≠ .r1_2 →
      DoGetChunkSuccessRate er sq prW prTx mode tx snr nbits numRxAntennas
          field staId =
        GetFecBpskBer er sq snr nbits tx.channelWidth
          (selectedPhyRate prW prTx mode tx staId) 5 8) := by
  constructor
  · intro hcs
    simp only [List.mem_cons, List.not_mem_nil, or_false, not_or] at hcs
    obtain ⟨h2, h4, h16, h64, h256, h1024, h4096⟩ := hcs
    rw [doChunk_eq_dispatch, if_pos helig, fecDispatch]
    simp [h2, h4, h16, h64, h256, h1024, h4096]
  · intro hcs hcr
    rw [doChunk_eq_dispatch, if_pos helig, fecDispatch]
    simp [hcs, hcr]

/-- Claim C2 witness: the amended theorem applied to an eligible mode of
constellation size 3 (returns 0) and to a BPSK mode of code rate 3/4
(answered with the fallback coefficients). -/
theorem C2_witness :
    DoGetChunkSuccessRate (fun _ => 1) (fun _ => 1) (fun _ _ => 6)
        (fun _ _ _ => 6) ⟨.erpOfdm, 3, .r1_2⟩
        ⟨20, false, fun _ => ⟨.erpOfdm, 3, .r1_2⟩⟩ 1 1 1 0 0 = 0 ∧
    DoGetChunkSuccessRate (fun _ => 1) (fun _ => 1) (fun _ _ => 6)
        (fun _ _ _ => 6) ⟨.erpOfdm, 2, .r3_4⟩
        ⟨20, false, fun _ => ⟨.erpOfdm, 2, .r3_4⟩⟩ 1 1 1 0 0 =
      GetFecBpskBer (fun _ => 1) (fun _ => 1) 1 1 20
        (selectedPhyRate (fun _ _ => 6) (fun _ _ _ => 6) ⟨.erpOfdm, 2, .r3_4⟩
          ⟨20, false, fun _ => ⟨.erpOfdm, 2, .r3_4⟩⟩ 0) 5 8 :=
  ⟨(C2_out_of_table_not_rejected (fun _ => 1) (fun _ => 1) (fun _ _ => 6)
      (fun _ _ _ => 6) ⟨.erpOfdm, 3, .r1_2⟩
      ⟨20, false, fun _ => ⟨.erpOfdm, 3, .r1_2⟩⟩ 1 1 1 0 0 (by decide)).1
      (by decide),
   (C2_out_of_table_not_rejected (fun _ => 1) (fun _ => 1) (fun _ _ => 6)
      (fun _ _ _ => 6) ⟨.erpOfdm, 2, .r3_4⟩
      ⟨20, false, fun _ => ⟨.erpOfdm, 2, .r3_4⟩⟩ 1 1 1 0 0 (by decide)).2
      rfl (by decide)⟩

/-- Claim C4 (as stated, refuted): at channel width 30 MHz, with the
header-rate condition holding and with a rate function returning its
width argument, the width actually used is 30, not the clamped
min(30, 20) = 20: the source only replaces widths of at least 40 MHz by
20 MHz. -/
theorem C4_counterexample :
    selectedPhyRate (fun _ w => w) (fun _ _ _ => 0) ⟨.erpOfdm, 2, .r1_2⟩
        ⟨30, false, fun _ => ⟨.erpOfdm, 2, .r3_4⟩⟩ 0 = 30 ∧
      (30 : ℚ) ≠ min 30 20 := by
  constructor
  · rw [selectedPhyRate, if_pos (by right; decide)]
    norm_num [effectiveHeaderWidth]
  · norm_num

/-- Claim C4 (amended): whenever the field is evaluated at a mode
different from the transmission's mode for the given station, or the
transmission is MU with the single-user sentinel station id, the bitrate
is computed at width 20 MHz if the actual channel width is at least
40 MHz and at the actual channel width otherwise; in every other case
the bitrate comes from the tx vector and mode.  For every channel width
that is at most 20 or at least 40 MHz this width rule coincides with
clamping the width to 20 MHz. -/
theorem C4_header_rate_width (prW : WifiMode → ℚ → ℚ)
    (prTx : WifiMode → WifiTxVector → ℕ → ℚ) (mode : WifiMode)
    (tx : WifiTxVector) (staId : ℕ) :
    (headerRateCond mode tx staId →
      selectedPhyRate prW prTx mode tx staId =
        prW mode (effectiveHeaderWidth tx.channelWidth)) ∧
    (¬headerRateCond mode tx staId →
      selectedPhyRate prW prTx mode tx staId = prTx mode tx staId) ∧
    (tx.channelWidth ≤ 20 ∨ 40 ≤ tx.channelWidth →
      effectiveHeaderWidth tx.channelWidth = min tx.channelWidth 20) := by
  refine ⟨fun h => by rw [selectedPhyRate, if_pos h],
    fun h => by rw [selectedPhyRate, if_neg h], fun h => ?_⟩
  rcases h with h | h
  · rw [effectiveHeaderWidth, if_neg (by linarith)]
    exact (min_eq_left h).symm
  · rw [effectiveHeaderWidth, if_pos h]
    exact (min_eq_right (by linarith)).symm

/-- Claim C4 witness: the amended theorem applied to a 160 MHz MU
transmission queried at SU_STA_ID (header-rate condition holds; the
width used is min(160, 20) = 20). -/
theorem C4_witness :
    selectedPhyRate (fun _ w => w) (fun _ _ _ => 0) ⟨.erpOfdm, 2, .r1_2⟩
        ⟨160, true, fun _ => ⟨.erpOfdm, 2, .r1_2⟩⟩ 65535 =
      (fun (_ : WifiMode) (w : ℚ) => w) ⟨.erpOfdm, 2, .r1_2⟩
        (effectiveHeaderWidth 160) ∧
    effectiveHeaderWidth (160 : ℚ) = min 160 20 :=
  ⟨(C4_header_rate_width (fun _ w => w) (fun _ _ _ => 0) ⟨.erpOfdm, 2, .r1_2⟩
      ⟨160, true, fun _ => ⟨.erpOfdm, 2, .r1_2⟩⟩ 65535).1
      (Or.inl ⟨rfl, rfl⟩),
   (C4_header_rate_width (fun _ w => w) (fun _ _ _ => 0) ⟨.erpOfdm, 2, .r1_2⟩
      ⟨160, true, fun _ => ⟨.erpOfdm, 2, .r1_2⟩⟩ 65535).2.2
      (Or.inr (by norm_num))⟩

/-- Claim C9: for an eligible mode of constellation size 2 and code rate
1/2 the dispatch invokes the BPSK path with (dFree, adFree) = (10, 11),
and for constellation size 64 and code rate 5/6 it invokes the QAM path
with (dFree, adFree, adFreePlusOne) = (4, 14, 69). -/
theorem C9_table_coefficients (er sq : ℚ → ℚ) (prW : WifiMode → ℚ → ℚ)
    (prTx : WifiMode → WifiTxVector → ℕ → ℚ) (mode : WifiMode)
    (tx : WifiTxVector) (snr : ℚ) (nbits numRxAntennas field staId : ℕ)
    (helig : modClassRank .erpOfdm ≤ modClassRank mode.modClass) :
    (mode.constellationSize = 2 → mode.codeRate = .r1_2 →
      DoGetChunkSuccessRate er sq prW prTx mode tx snr nbits numRxAntennas
          field staId =
        GetFecBpskBer er sq snr nbits tx.channelWidth
          (selectedPhyRate prW prTx mode tx staId) 10 11) ∧
    (mode.constellationSize = 64 → mode.codeRate = .r5_6 →
      DoGetChunkSuccessRate er sq prW prTx mode tx snr nbits numRxAntennas
          field staId =
        GetFecQamBer er sq snr nbits tx.channelWidth
          (selectedPhyRate prW prTx mode tx staId) 64 4 14 69) := by
  constructor <;> intro hcs hcr <;>
    rw [doChunk_eq_dispatch, if_pos helig, fecDispatch] <;> simp [hcs, hcr]

/-- Claim C9 witness: the theorem applied to concrete ERP-OFDM modes of
constellation 2 with rate 1/2 and constellation 64 with rate 5/6. -/
theorem C9_witness :
    DoGetChunkSuccessRate (fun _ => 1) (fun _ => 1) (fun _ _ => 6)
        (fun _ _ _ => 6) ⟨.erpOfdm, 2, .r1_2⟩
        ⟨20, false, fun _ => ⟨.erpOfdm, 2, .r1_2⟩⟩ 1 1 1 0 0 =
      GetFecBpskBer (fun _ => 1) (fun _ => 1) 1 1 20
        (selectedPhyRate (fun _ _ => 6) (fun _ _ _ => 6) ⟨.erpOfdm, 2, .r1_2⟩
          ⟨20, false, fun _ => ⟨.erpOfdm, 2, .r1_2⟩⟩ 0) 10 11 ∧
    DoGetChunkSuccessRate (fun _ => 1) (fun _ => 1) (fun _ _ => 6)
        (fun _ _ _ => 6) ⟨.erpOfdm, 64, .r5_6⟩
        ⟨20, false, fun _ => ⟨.erpOfdm, 64, .r5_6⟩⟩ 1 1 1 0 0 =
      GetFecQamBer (fun _ => 1) (fun _ => 1) 1 1 20
        (selectedPhyRate (fun _ _ => 6) (fun _ _ _ => 6) ⟨.erpOfdm, 64, .r5_6⟩
          ⟨20, false, fun _ => ⟨.erpOfdm, 64, .r5_6⟩⟩ 0) 64 4 14 69 :=
  ⟨(C9_table_coefficients (fun _ => 1) (fun _ => 1) (fun _ _ => 6)
      (fun _ _ _ => 6) ⟨.erpOfdm, 2, .r1_2⟩
      ⟨20, false, fun _ => ⟨.erpOfdm, 2, .r1_2⟩⟩ 1 1 1 0 0 (by decide)).1
      rfl rfl,
   (C9_table_coefficients (fun _ => 1) (fun _ => 1) (fun _ _ => 6)
      (fun _ _ _ => 6) ⟨.erpOfdm, 64, .r5_6⟩
      ⟨20, false, fun _ => ⟨.erpOfdm, 64, .r5_6⟩⟩ 1 1 1 0 0 (by decide)).2
      rfl rfl⟩

/-- Claim C10: when the header-rate condition holds (clamped-bitrate
case), the result is the dispatch chain evaluated with the signal spread
still equal to the transmission's full actual channel width; only the
PHY-rate argument uses the reduced width. -/
theorem C10_spread_uses_actual_width (er sq : ℚ → ℚ)
    (prW : WifiMode → ℚ → ℚ) (prTx : WifiMode → WifiTxVector → ℕ → ℚ)
    (mode : WifiMode) (tx : WifiTxVector) (snr : ℚ)
    (nbits numRxAntennas field staId : ℕ)
    (helig : modClassRank .erpOfdm ≤ modClassRank mode.modClass)
    (hcond : headerRateCond mode tx staId) :
    DoGetChunkSuccessRate er sq prW prTx mode tx snr nbits numRxAntennas
        field staId =
      fecDispatch er sq mode snr nbits tx.channelWidth
        (prW mode (effectiveHeaderWidth tx.channelWidth)) := by
  rw [doChunk_eq_dispatch, if_pos helig, selectedPhyRate, if_pos hcond]

/-- Claim C10 witness: the theorem applied to a concrete 80 MHz call
whose evaluated mode differs from the transmission mode. -/
theorem C10_witness :
    DoGetChunkSuccessRate (fun _ => 1) (fun _ => 1) (fun _ _ => 6)
        (fun _ _ _ => 6) ⟨.erpOfdm, 2, .r1_2⟩
        ⟨80, false, fun _ => ⟨.erpOfdm, 2, .r3_4⟩⟩ 1 1 1 0 0 =
      fecDispatch (fun _ => 1) (fun _ => 1) ⟨.erpOfdm, 2, .r1_2⟩ 1 1 80
        ((fun (_ : WifiMode) (_ : ℚ) => (6 : ℚ)) ⟨.erpOfdm, 2, .r1_2⟩
          (effectiveHeaderWidth 80)) :=
  C10_spread_uses_actual_width (fun _ => 1) (fun _ => 1) (fun _ _ => 6)
    (fun _ _ _ => 6) ⟨.erpOfdm, 2, .r1_2⟩
    ⟨80, false, fun _ => ⟨.erpOfdm, 2, .r3_4⟩⟩ 1 1 1 0 0 (by decide)
    (Or.inr (by decide))

end Yans

namespace Yans

/-- Each Binomial term is nonnegative when 0 <= p <= 1 (the
combinatorial factor is a natural number). -/
theorem binomial_nonneg (i n : ℕ) (p : ℚ) (h0 : 0 ≤ p) (h1 : p ≤ 1) :
    0 ≤ Binomial i p n := by
  rw [Binomial]
  exact mul_nonneg (mul_nonneg (Nat.cast_nonneg _) (pow_nonneg h0 _))
    (pow_nonneg (by linarith) _)

/-- CalculatePd is nonnegative for a BER in the unit interval. -/
theorem calculatePd_nonneg (ber : ℚ) (d : ℕ) (h0 : 0 ≤ ber) (h1 : ber ≤ 1) :
    0 ≤ CalculatePd ber d := by
  rw [CalculatePd]
  split
  · rw [CalculatePdEven]
    have hs : 0 ≤ ∑ i in Finset.Ico (d / 2 + 1) d, Binomial i ber d :=
      Finset.sum_nonneg fun i _ => binomial_nonneg i d ber h0 h1
    have hb := binomial_nonneg (d / 2) d ber h0 h1
    linarith
  · rw [CalculatePdOdd]
    exact Finset.sum_nonneg fun i _ => binomial_nonneg i d ber h0 h1

/-- The raw BPSK BER lies in the unit interval whenever the erfc model
does not exceed the range of the true erfc. -/
theorem bpskBer_mem (er sq : ℚ → ℚ) (her0 : ∀ x, 0 ≤ er x)
    (her2 : ∀ x, er x ≤ 2) (snr signalSpread phyRate : ℚ) :
    0 ≤ GetBpskBer er sq snr signalSpread phyRate ∧
      GetBpskBer er sq snr signalSpread phyRate ≤ 1 := by
  rw [GetBpskBer]
  constructor
  · have := her0 (sq (snr * signalSpread * 1000000 / phyRate))
    linarith
  · have := her2 (sq (snr * signalSpread * 1000000 / phyRate))
    linarith

/-- The raw QAM BER lies in the unit interval for every constellation
size of at least 4, whenever the erfc model stays within [0, 2] and the
sqrt model maps arguments of at least 1 to values of at least 1. -/
theorem qamBer_mem (er sq : ℚ → ℚ) (her0 : ∀ x, 0 ≤ er x)
    (her2 : ∀ x, er x ≤ 2) (hsq : ∀ x, 1 ≤ x → 1 ≤ sq x)
    (snr signalSpread phyRate : ℚ) (m : ℕ) (hm : 4 ≤ m) :
    0 ≤ GetQamBer er sq snr m signalSpread phyRate ∧
      GetQamBer er sq snr m signalSpread phyRate ≤ 1 := by
  rw [GetQamBer]
  have hmq : (1 : ℚ) ≤ (m : ℚ) := by
    have : ((4 : ℕ) : ℚ) ≤ (m : ℚ) := Nat.cast_le.mpr hm
    push_cast at this
    linarith
  have hs : 1 ≤ sq (m : ℚ) := hsq _ hmq
  have hs0 : 0 < sq (m : ℚ) := by linarith
  have hinv1 : 1 / sq (m : ℚ) ≤ 1 := by
    rw [div_le_one hs0]
    exact hs
  have hinv0 : 0 < 1 / sq (m : ℚ) := by positivity
  set e := er (sq (3 / 2 * (Nat.log 2 m : ℚ) *
    (snr * signalSpread * 1000000 / phyRate) / ((m : ℚ) - 1))) with he
  have he0 : 0 ≤ e := her0 _
  have he2 : e ≤ 2 := her2 _
  set t := 1 - 1 / sq (m : ℚ) with ht
  have ht0 : 0 ≤ t := by rw [ht]; linarith
  have ht1 : t ≤ 1 := by rw [ht]; linarith
  have hz10 : 0 ≤ t * e := mul_nonneg ht0 he0
  have hz12 : t * e ≤ 2 := by
    calc t * e ≤ 1 * 2 := mul_le_mul ht1 he2 he0 zero_le_one
    _ = 2 := by norm_num
  have hz20 : 0 ≤ 1 - (1 - t * e) ^ 2 := by nlinarith
  have hz21 : 1 - (1 - t * e) ^ 2 ≤ 1 := by nlinarith [sq_nonneg (1 - t * e)]
  have hL : (1 : ℚ) ≤ (Nat.log 2 m : ℚ) := by
    have : 0 < Nat.log 2 m := Nat.log_pos (by norm_num) (by omega)
    exact_mod_cast this
  constructor
  · exact div_nonneg hz20 (by linarith)
  · calc (1 - (1 - t * e) ^ 2) / (Nat.log 2 m : ℚ) ≤
        (1 - (1 - t * e) ^ 2) / 1 := by
          apply div_le_div_of_nonneg_left hz20 ?_ hL
          norm_num
    _ ≤ 1 := by rw [div_one]; linarith

/-- GetFecBpskBer lies in the unit interval. -/
theorem fecBpsk_mem (er sq : ℚ → ℚ) (her0 : ∀ x, 0 ≤ er x)
    (her2 : ∀ x, er x ≤ 2) (snr : ℚ) (nbits : ℕ) (signalSpread phyRate : ℚ)
    (dFree adFree : ℕ) :
    0 ≤ GetFecBpskBer er sq snr nbits signalSpread phyRate dFree adFree ∧
      GetFecBpskBer er sq snr nbits signalSpread phyRate dFree adFree ≤ 1 := by
  obtain ⟨hb0, hb1⟩ := bpskBer_mem er sq her0 her2 snr signalSpread phyRate
  rw [GetFecBpskBer]
  split
  · exact ⟨zero_le_one, le_refl 1⟩
  · have hpd := calculatePd_nonneg _ dFree hb0 hb1
    have hmin0 : 0 ≤ min ((adFree : ℚ) *
        CalculatePd (GetBpskBer er sq snr signalSpread phyRate) dFree) 1 :=
      le_min (mul_nonneg (Nat.cast_nonneg _) hpd) zero_le_one
    have hmin1 := min_le_right ((adFree : ℚ) *
      CalculatePd (GetBpskBer er sq snr signalSpread phyRate) dFree) 1
    constructor
    · exact pow_nonneg (by linarith) _
    · exact pow_le_one₀ (by linarith) (by linarith)

/-- GetFecQamBer lies in the unit interval for constellation sizes of
at least 4. -/
theorem fecQam_mem (er sq : ℚ → ℚ) (her0 : ∀ x, 0 ≤ er x)
    (her2 : ∀ x, er x ≤ 2) (hsq : ∀ x, 1 ≤ x → 1 ≤ sq x) (snr : ℚ)
    (nbits : ℕ) (signalSpread phyRate : ℚ) (m dFree adFree adFreePlusOne : ℕ)
    (hm : 4 ≤ m) :
    0 ≤ GetFecQamBer er sq snr nbits signalSpread phyRate m dFree adFree
        adFreePlusOne ∧
      GetFecQamBer er sq snr nbits signalSpread phyRate m dFree adFree
        adFreePlusOne ≤ 1 := by
  obtain ⟨hb0, hb1⟩ := qamBer_mem er sq her0 her2 hsq snr signalSpread phyRate m hm
  rw [GetFecQamBer]
  split
  · exact ⟨zero_le_one, le_refl 1⟩
  · have hpd1 := calculatePd_nonneg _ dFree hb0 hb1
    have hpd2 := calculatePd_nonneg _ (dFree + 1) hb0 hb1
    have hsum : 0 ≤ (adFree : ℚ) *
        CalculatePd (GetQamBer er sq snr m signalSpread phyRate) dFree +
        (adFreePlusOne : ℚ) *
        CalculatePd (GetQamBer er sq snr m signalSpread phyRate) (dFree + 1) := by
      have := mul_nonneg (Nat.cast_nonneg adFree) hpd1
      have := mul_nonneg (Nat.cast_nonneg adFreePlusOne) hpd2
      linarith
    have hmin0 := le_min hsum zero_le_one
    have hmin1 := min_le_right ((adFree : ℚ) *
      CalculatePd (GetQamBer er sq snr m signalSpread phyRate) dFree +
      (adFreePlusOne : ℚ) *
      CalculatePd (GetQamBer er sq snr m signalSpread phyRate) (dFree + 1)) 1
    constructor
    · exact pow_nonneg (by linarith) _
    · exact pow_le_one₀ (by linarith) (by linarith)

/-- Every branch of the dispatch chain lies in the unit interval. -/
theorem fecDispatch_mem (er sq : ℚ → ℚ) (her0 : ∀ x, 0 ≤ er x)
    (her2 : ∀ x, er x ≤ 2) (hsq : ∀ x, 1 ≤ x → 1 ≤ sq x) (mode : WifiMode)
    (snr : ℚ) (nbits : ℕ) (signalSpread phyRate : ℚ) :
    0 ≤ fecDispatch er sq mode snr nbits signalSpread phyRate ∧
      fecDispatch er sq mode snr nbits signalSpread phyRate ≤ 1 := by
  rw [fecDispatch]
  by_cases h2 : mode.constellationSize = 2
  · rw [if_pos h2]
    by_cases hr : mode.codeRate = WifiCodeRate.r1_2
    · rw [if_pos hr]
      exact fecBpsk_mem er sq her0 her2 _ _ _ _ _ _
    · rw [if_neg hr]
      exact fecBpsk_mem er sq her0 her2 _ _ _ _ _ _
  · rw [if_neg h2]
    by_cases h4 : mode.constellationSize = 4
    · rw [if_pos h4]
      by_cases hr : mode.codeRate = WifiCodeRate.r1_2
      · rw [if_pos hr]
        exact fecQam_mem er sq her0 her2 hsq _ _ _ _ _ _ _ _ (by norm_num)
      · rw [if_neg hr]
        exact fecQam_mem er sq her0 her2 hsq _ _ _ _ _ _ _ _ (by norm_num)
    · rw [if_neg h4]
      by_cases h16 : mode.constellationSize = 16
      · rw [if_pos h16]
        by_cases hr : mode.codeRate = WifiCodeRate.r1_2
        · rw [if_pos hr]
          exact fecQam_mem er sq her0 her2 hsq _ _ _ _ _ _ _ _ (by norm_num)
        · rw [if_neg hr]
          exact fecQam_mem er sq her0 her2 hsq _ _ _ _ _ _ _ _ (by norm_num)
      · rw [if_neg h16]
        by_cases h64 : mode.constellationSize = 64
        · rw [if_pos h64]
          by_cases hr23 : mode.codeRate = WifiCodeRate.r2_3
          · rw [if_pos hr23]
            exact fecQam_mem er sq her0 her2 hsq _ _ _ _ _ _ _ _ (by norm_num)
          · rw [if_neg hr23]
            by_cases hr56 : mode.codeRate = WifiCodeRate.r5_6
            · rw [if_pos hr56]
              exact fecQam_mem er sq her0 her2 hsq _ _ _ _ _ _ _ _ (by norm_num)
            · rw [if_neg hr56]
              exact fecQam_mem er sq her0 her2 hsq _ _ _ _ _ _ _ _ (by norm_num)
        · rw [if_neg h64]
          by_cases h256 : mode.constellationSize = 256
          · rw [if_pos h256]
            by_cases hr : mode.codeRate = WifiCodeRate.r5_6
            · rw [if_pos hr]
              exact fecQam_mem er sq her0 her2 hsq _ _ _ _ _ _ _ _ (by norm_num)
            · rw [if_neg hr]
              exact fecQam_mem er sq her0 her2 hsq _ _ _ _ _ _ _ _ (by norm_num)
          · rw [if_neg h256]
            by_cases h1024 : mode.constellationSize = 1024
            · rw [if_pos h1024]
              by_cases hr : mode.codeRate = WifiCodeRate.r5_6
              · rw [if_pos hr]
                exact fecQam_mem er sq her0 her2 hsq _ _ _ _ _ _ _ _ (by norm_num)
              · rw [if_neg hr]
                exact fecQam_mem er sq her0 her2 hsq _ _ _ _ _ _ _ _ (by norm_num)
            · rw [if_neg h1024]
              by_cases h4096 : mode.constellationSize = 4096
              · rw [if_pos h4096]
                by_cases hr : mode.codeRate = WifiCodeRate.r5_6
                · rw [if_pos hr]
                  exact fecQam_mem er sq her0 her2 hsq _ _ _ _ _ _ _ _ (by norm_num)
                · rw [if_neg hr]
                  exact fecQam_mem er sq her0 her2 hsq _ _ _ _ _ _ _ _ (by norm_num)
              · rw [if_neg h4096]
                exact ⟨le_refl 0, zero_le_one⟩

/-- DoGetChunkSuccessRate lies in the unit interval for every input. -/
theorem doChunk_mem (er sq : ℚ → ℚ) (her0 : ∀ x, 0 ≤ er x)
    (her2 : ∀ x, er x ≤ 2) (hsq : ∀ x, 1 ≤ x → 1 ≤ sq x)
    (prW : WifiMode → ℚ → ℚ) (prTx : WifiMode → WifiTxVector → ℕ → ℚ)
    (mode : WifiMode) (tx : WifiTxVector) (snr : ℚ)
    (nbits numRxAntennas field staId : ℕ) :
    0 ≤ DoGetChunkSuccessRate er sq prW prTx mode tx snr nbits numRxAntennas
        field staId ∧
      DoGetChunkSuccessRate er sq prW prTx mode tx snr nbits numRxAntennas
        field staId ≤ 1 := by
  rw [doChunk_eq_dispatch]
  split
  · exact fecDispatch_mem er sq her0 her2 hsq mode snr nbits tx.channelWidth
      (selectedPhyRate prW prTx mode tx staId)
  · exact ⟨le_refl 0, zero_le_one⟩

/-- Claim C5: for all valid inputs (nonnegative SNR, positive channel
width and bitrate, supported constellation size, any bit count), the
probability returned by DoGetChunkSuccessRate, and by the underlying
GetFecBpskBer and GetFecQamBer, lies in [0, 1].  The erfc and sqrt
models are constrained only by properties the true functions satisfy:
0 <= erfc <= 2, and sqrt x >= 1 for x >= 1. -/
theorem C5_probability_in_unit_interval (er sq : ℚ → ℚ)
    (her0 : ∀ x, 0 ≤ er x) (her2 : ∀ x, er x ≤ 2)
    (hsq : ∀ x, 1 ≤ x → 1 ≤ sq x) :
    (∀ (snr : ℚ) (nbits : ℕ) (signalSpread phyRate : ℚ) (dFree adFree : ℕ),
        0 ≤ snr → 0 < signalSpread → 0 < phyRate →
        0 ≤ GetFecBpskBer er sq snr nbits signalSpread phyRate dFree adFree ∧
          GetFecBpskBer er sq snr nbits signalSpread phyRate dFree adFree ≤ 1) ∧
    (∀ (snr : ℚ) (nbits : ℕ) (signalSpread phyRate : ℚ)
        (m dFree adFree adFreePlusOne : ℕ),
        0 ≤ snr → 0 < signalSpread → 0 < phyRate → 4 ≤ m →
        0 ≤ GetFecQamBer er sq snr nbits signalSpread phyRate m dFree adFree
            adFreePlusOne ∧
          GetFecQamBer er sq snr nbits signalSpread phyRate m dFree adFree
            adFreePlusOne ≤ 1) ∧
    (∀ (prW : WifiMode → ℚ → ℚ) (prTx : WifiMode → WifiTxVector → ℕ → ℚ)
        (mode : WifiMode) (tx : WifiTxVector) (snr : ℚ)
        (nbits numRxAntennas field staId : ℕ),
        0 ≤ snr → 0 < tx.channelWidth →
        0 ≤ DoGetChunkSuccessRate er sq prW prTx mode tx snr nbits
            numRxAntennas field staId ∧
          DoGetChunkSuccessRate er sq prW prTx mode tx snr nbits numRxAntennas
            field staId ≤ 1) :=
  ⟨fun snr nbits signalSpread phyRate dFree adFree _ _ _ =>
      fecBpsk_mem er sq her0 her2 snr nbits signalSpread phyRate dFree adFree,
   fun snr nbits signalSpread phyRate m dFree adFree adFreePlusOne _ _ _ hm =>
      fecQam_mem er sq her0 her2 hsq snr nbits signalSpread phyRate m dFree
        adFree adFreePlusOne hm,
   fun prW prTx mode tx snr nbits numRxAntennas field staId _ _ =>
      doChunk_mem er sq her0 her2 hsq prW prTx mode tx snr nbits numRxAntennas
        field staId⟩

/-- Claim C5 witness: with a constant-1 erfc model and the identity-like
constant-1 sqrt model (both satisfying the hypotheses), a concrete BPSK
call and a concrete 64-QAM dispatch call lie in [0, 1]. -/
theorem C5_witness :
    (0 ≤ GetFecBpskBer (fun _ => 1) (fun _ => 1) 1 1000 20 6000000 10 11 ∧
      GetFecBpskBer (fun _ => 1) (fun _ => 1) 1 1000 20 6000000 10 11 ≤ 1) ∧
    (0 ≤ DoGetChunkSuccessRate (fun _ => 1) (fun _ => 1) (fun _ _ => 6)
        (fun _ _ _ => 6) ⟨.erpOfdm, 64, .r5_6⟩
        ⟨20, false, fun _ => ⟨.erpOfdm, 64, .r5_6⟩⟩ 1 1000 1 0 0 ∧
      DoGetChunkSuccessRate (fun _ => 1) (fun _ => 1) (fun _ _ => 6)
        (fun _ _ _ => 6) ⟨.erpOfdm, 64, .r5_6⟩
        ⟨20, false, fun _ => ⟨.erpOfdm, 64, .r5_6⟩⟩ 1 1000 1 0 0 ≤ 1) :=
  ⟨(C5_probability_in_unit_interval (fun _ => 1) (fun _ => 1)
      (fun _ => by norm_num) (fun _ => by norm_num)
      (fun _ _ => le_refl 1)).1 1 1000 20 6000000 10 11 (by norm_num)
      (by norm_num) (by norm_num),
   (C5_probability_in_unit_interval (fun _ => 1) (fun _ => 1)
      (fun _ => by norm_num) (fun _ => by norm_num)
      (fun _ _ => le_refl 1)).2.2 (fun _ _ => 6) (fun _ _ _ => 6)
      ⟨.erpOfdm, 64, .r5_6⟩ ⟨20, false, fun _ => ⟨.erpOfdm, 64, .r5_6⟩⟩
      1 1000 1 0 0 (by norm_num) (by norm_num)⟩

end Yans
